import Mathlib

/-!
Verification development for the liminal-voice-core regulation engine.

The Rust core (src/stabilizer.rs, src/sync.rs, src/astro.rs) is shallowly
embedded below.  IEEE `f32` arithmetic is modelled by exact rational
arithmetic over `ℚ`; machine integers `i64`/`u32`/`usize` are modelled by
`ℤ`/`ℕ` (with explicit saturation where the source saturates).  Every
definition is translated directly from the Rust source; definitions whose
doc comment begins with "Spec-side" restate a sentence of the prose
specification for comparison against the code-derived definition.
-/

/-- Model of Rust `f32::clamp(lo, hi)` (defined for `lo ≤ hi`; the Rust
function panics when `lo > hi`, a case no caller in the core exercises). -/
def rclamp (lo hi x : ℚ) : ℚ := min hi (max lo x)

/-- Model of `i64::clamp(lo, hi)`. -/
def iclamp (lo hi x : ℤ) : ℤ := min hi (max lo x)

/-- Model of `metrics::clamp01` from src/metrics.rs: branch structure kept. -/
def clamp01 (v : ℚ) : ℚ := if v < 0 then 0 else if v > 1 then 1 else v

/-- Model of Rust `f32::round`: round half away from zero. -/
def roundAway (q : ℚ) : ℤ := if 0 ≤ q then (q + 1/2).floor else -((-q + 1/2)).floor

/-- Model of the Rust cast `as i64` on a finite float: truncation toward
zero (the saturation of the cast at the `i64` range is irrelevant to the
core, whose casts are immediately clamped into small ranges). -/
def truncToInt (q : ℚ) : ℤ := Int.tdiv q.num (q.den : ℤ)

/-- Saturating `u32` increment, model of `u32::saturating_add(1)`. -/
def satAddU32 (n : ℕ) : ℕ := min (n + 1) 4294967295

/-! ## Stabilizer (src/stabilizer.rs) -/

/-- `EmoState` from src/stabilizer.rs. -/
inductive EmoState where
  | Normal
  | Warming
  | Overheat
  | Cooldown
deriving DecidableEq, Repr

/-- `StabilizerCfg` from src/stabilizer.rs. -/
structure StabilizerCfg where
  win : ℕ
  ema_alpha : ℚ
  warm_drift : ℚ
  hot_drift : ℚ
  low_res : ℚ
  cool_steps : ℕ
  calm_boost : ℚ
deriving DecidableEq, Repr

/-- `Stabilizer` from src/stabilizer.rs.  The Rust field `initialized` is
named `inited` here. -/
structure Stabilizer where
  cfg : StabilizerCfg
  state : EmoState
  steps_in_state : ℕ
  ema_drift : ℚ
  ema_res : ℚ
  ring_drift : List ℚ
  ring_res : List ℚ
  idx : ℕ
  inited : Bool
deriving DecidableEq, Repr

/-- `Advice` from src/stabilizer.rs. -/
structure Advice where
  pace_delta : ℚ
  pause_delta_ms : ℤ
  articulation_hint : ℚ
deriving DecidableEq, Repr

/-- `Stabilizer::new` from src/stabilizer.rs lines 43-63. -/
def Stabilizer.new (cfg0 : StabilizerCfg) : Stabilizer :=
  let cfg : StabilizerCfg :=
    { win := max cfg0.win 1
      ema_alpha := rclamp 0 1 cfg0.ema_alpha
      warm_drift := rclamp 0 1 cfg0.warm_drift
      hot_drift := rclamp 0 1 cfg0.hot_drift
      low_res := rclamp 0 1 cfg0.low_res
      cool_steps := max cfg0.cool_steps 1
      calm_boost := rclamp 0 (1/5) cfg0.calm_boost }
  { cfg := cfg
    state := EmoState.Normal
    steps_in_state := 0
    ema_drift := 0
    ema_res := 0
    ring_drift := List.replicate cfg.win 0
    ring_res := List.replicate cfg.win 0
    idx := 0
    inited := false }

/-- `Stabilizer::push` from src/stabilizer.rs lines 65-122. -/
def Stabilizer.push (s : Stabilizer) (drift0 res0 : ℚ) : Stabilizer :=
  if s.ring_drift = [] then s
  else
    let drift := rclamp 0 1 drift0
    let res := rclamp 0 1 res0
    let ring_drift := s.ring_drift.set s.idx drift
    let ring_res := s.ring_res.set s.idx res
    let idx := (s.idx + 1) % ring_drift.length
    let ema_drift :=
      if s.inited then s.cfg.ema_alpha * drift + (1 - s.cfg.ema_alpha) * s.ema_drift
      else drift
    let ema_res :=
      if s.inited then s.cfg.ema_alpha * res + (1 - s.cfg.ema_alpha) * s.ema_res
      else res
    let ema_drift := rclamp 0 1 ema_drift
    let ema_res := rclamp 0 1 ema_res
    let next_state :=
      if s.cfg.hot_drift ≤ drift ∧ res ≤ s.cfg.low_res then EmoState.Overheat
      else if s.cfg.warm_drift ≤ drift then EmoState.Warming
      else
        match s.state with
        | EmoState.Overheat =>
            if s.steps_in_state + 1 < s.cfg.cool_steps then EmoState.Cooldown
            else EmoState.Normal
        | EmoState.Cooldown =>
            if s.cfg.cool_steps ≤ s.steps_in_state + 1 then EmoState.Normal
            else EmoState.Cooldown
        | _ => EmoState.Normal
    if next_state ≠ s.state then
      { s with
        ring_drift := ring_drift, ring_res := ring_res, idx := idx
        ema_drift := ema_drift, ema_res := ema_res, inited := true
        state := next_state, steps_in_state := 0 }
    else
      { s with
        ring_drift := ring_drift, ring_res := ring_res, idx := idx
        ema_drift := ema_drift, ema_res := ema_res, inited := true
        steps_in_state := min (s.steps_in_state + 1) (s.cfg.cool_steps * 2) }

/-- `Stabilizer::advice` from src/stabilizer.rs lines 124-147. -/
def Stabilizer.advice (s : Stabilizer) : Advice :=
  match s.state with
  | EmoState.Normal => { pace_delta := 0, pause_delta_ms := 0, articulation_hint := 0 }
  | EmoState.Warming => { pace_delta := -3/100, pause_delta_ms := 10, articulation_hint := 1/50 }
  | EmoState.Overheat =>
      { pace_delta := -7/100 - s.cfg.calm_boost
        pause_delta_ms := 30 + roundAway (s.cfg.calm_boost * 100)
        articulation_hint := 1/20 }
  | EmoState.Cooldown => { pace_delta := -1/25, pause_delta_ms := 20, articulation_hint := 3/100 }

/-! ## Sync controller (src/sync.rs) -/

/-- `Baselines` from src/sync.rs. -/
structure Baselines where
  drift : ℚ
  res : ℚ
deriving DecidableEq, Repr

/-- `Seeds` from src/sync.rs. -/
structure Seeds where
  pace_bias : ℚ
  pause_bias_ms : ℤ
  res_warm : ℚ
  drift_soft : ℚ
deriving DecidableEq, Repr

/-- `SyncCfg` from src/sync.rs. -/
structure SyncCfg where
  lr_fast : ℚ
  lr_slow : ℚ
  clamp_step : ℚ
deriving DecidableEq, Repr

/-- `SyncState` from src/sync.rs. -/
structure SyncState where
  baselines : Baselines
  seeds : Seeds
  accum_drift : ℚ
  accum_res : ℚ
  steps : ℕ
deriving DecidableEq, Repr

/-- The four-correction tuple returned by `SyncState::step`. -/
structure StepOut where
  pace : ℚ
  pause : ℤ
  res_boost : ℚ
  drift_relief : ℚ
deriving DecidableEq, Repr

/-- `SyncState::warm_start` from src/sync.rs lines 39-45. -/
def SyncState.warm_start (s : SyncState) (seeds : Seeds) (base : Baselines) : SyncState :=
  { s with seeds := seeds, baselines := base, accum_drift := 0, accum_res := 0, steps := 0 }

/-- `SyncState::step` from src/sync.rs lines 47-80.  The Rust
`(...) as i64` cast on the pause term truncates toward zero, modelled by
`truncToInt`. -/
def SyncState.step (s : SyncState) (drift res : ℚ) (state : EmoState) (cfg : SyncCfg) :
    StepOut × SyncState :=
  let d_drift := min 1 (max (-1) (drift - s.baselines.drift))
  let d_res := min 1 (max (-1) (s.baselines.res - res))
  let s2 : SyncState :=
    { s with
      accum_drift := s.accum_drift + d_drift
      accum_res := s.accum_res + d_res
      steps := s.steps + 1 }
  let pace := rclamp (-cfg.clamp_step) cfg.clamp_step (-cfg.lr_fast * d_drift)
  let pause := iclamp (-20) 40 (truncToInt (cfg.lr_fast * d_res * 80))
  let res_boost := rclamp 0 cfg.clamp_step (cfg.lr_fast * max d_res 0 * (1/20))
  let drift_relief := rclamp 0 cfg.clamp_step (cfg.lr_fast * max (-d_drift) 0 * (1/20))
  let pace := if state = EmoState.Overheat then pace - 1/100 else pace
  let pause := if state = EmoState.Overheat then pause + 10 else pause
  (⟨pace, pause, res_boost, drift_relief⟩, s2)

/-- `SyncState::to_slow_increments` from src/sync.rs lines 82-91. -/
def SyncState.to_slow_increments (s : SyncState) (cfg : SyncCfg) : ℚ × ℚ :=
  if s.steps = 0 then (0, 0)
  else
    let mean_drift := s.accum_drift / (s.steps : ℚ)
    let mean_res := s.accum_res / (s.steps : ℚ)
    (rclamp (-3/100) (3/100) (-mean_drift * cfg.lr_slow),
     rclamp (-3/100) (3/100) (mean_res * cfg.lr_slow))

/-! ## Clamp helper lemmas and stabilizer/sync theorems -/

def testStabCfg : StabilizerCfg :=
  { win := 5, ema_alpha := 2/5, warm_drift := 8/25, hot_drift := 21/50,
    low_res := 29/50, cool_steps := 3, calm_boost := 2/25 }

def testStabOverheat : Stabilizer :=
  (((Stabilizer.new testStabCfg).push (1/5) (4/5)).push (17/50) (7/10)).push (9/20) (11/20)

def testSyncState : SyncState :=
  { baselines := { drift := 0, res := 13/20 }, seeds := ⟨0, 0, 0, 0⟩,
    accum_drift := 0, accum_res := 0, steps := 0 }

def testSyncCfg : SyncCfg := { lr_fast := 3/20, lr_slow := 1/20, clamp_step := 1/50 }

def penaltySyncState : SyncState :=
  { baselines := { drift := 0, res := 1 }, seeds := ⟨0, 0, 0, 0⟩,
    accum_drift := 0, accum_res := 0, steps := 0 }

def penaltySyncCfg : SyncCfg := { lr_fast := 1, lr_slow := 1/20, clamp_step := 1/50 }

/-! ## Topic memory store (src/astro.rs) -/

/-- The opening brace character (written via its code point). -/
def lbrace : Char := Char.ofNat 123

/-- The closing brace character (written via its code point). -/
def rbrace : Char := Char.ofNat 125

/-- ASCII whitespace test used by the model of `str::trim` (the log lines
produced and consumed by the store only ever contain ASCII whitespace). -/
def isWsChar (c : Char) : Bool :=
  c == Char.ofNat 32 || c == Char.ofNat 9 || c == Char.ofNat 10 || c == Char.ofNat 13

/-- Model of `str::trim` on the character list. -/
def trimChars (l : List Char) : List Char :=
  ((l.dropWhile isWsChar).reverse.dropWhile isWsChar).reverse

/-- Model of `str::trim_matches('"')`. -/
def trimQuotes (l : List Char) : List Char :=
  let q : Char := Char.ofNat 34
  ((l.dropWhile (· == q)).reverse.dropWhile (· == q)).reverse

/-- Model of `str::split(sep)`: always yields at least one (possibly empty) part. -/
def splitChar (sep : Char) : List Char → List (List Char)
  | [] => [[]]
  | c :: cs =>
      let r := splitChar sep cs
      if c = sep then [] :: r
      else
        match r with
        | [] => [[c]]
        | p :: ps => (c :: p) :: ps

/-- Numeric value of an ASCII digit. -/
def digitVal (c : Char) : Option ℕ :=
  if Char.ofNat 48 ≤ c ∧ c ≤ Char.ofNat 57 then some (c.toNat - 48) else none

/-- Horner accumulation over a digit list; fails on a non-digit. -/
def digitsAccum : List Char → ℕ → Option ℕ
  | [], acc => some acc
  | c :: cs, acc =>
      match digitVal c with
      | some d => digitsAccum cs (acc * 10 + d)
      | none => none

/-- Parse a nonempty all-digit string as a natural number. -/
def parseNat (cs : List Char) : Option ℕ :=
  if cs = [] then none else digitsAccum cs 0

/-- Model of `str::parse::<u32>` (optional leading plus, range checked). -/
def parseU32 (cs : List Char) : Option ℕ :=
  let core :=
    match cs with
    | c :: rest => if c = Char.ofNat 43 then parseNat rest else parseNat cs
    | [] => none
  match core with
  | some v => if v < 4294967296 then some v else none
  | none => none

/-- Model of `str::parse::<i64>` (optional sign, range checked). -/
def parseI64 (cs : List Char) : Option ℤ :=
  let signed : Option ℤ :=
    match cs with
    | c :: rest =>
        if c = Char.ofNat 45 then (parseNat rest).map (fun n => -(n : ℤ))
        else if c = Char.ofNat 43 then (parseNat rest).map (fun n => (n : ℤ))
        else (parseNat cs).map (fun n => (n : ℤ))
    | [] => none
  match signed with
  | some v => if -9223372036854775808 ≤ v ∧ v ≤ 9223372036854775807 then some v else none
  | none => none

/-- Digit-run value allowing the empty run (used for the two sides of the
decimal point, where Rust accepts "5." and ".5"). -/
def digitsOrEmpty (cs : List Char) : Option ℕ := digitsAccum cs 0

/-- Model of `str::parse::<f32>` restricted to plain decimal notation
(sign, digits, optional point, digits).  Exponent, infinity and NaN forms
are not produced by `to_json_line` and are left out of the model. -/
def parseDec (cs : List Char) : Option ℚ :=
  let core : List Char → Option ℚ := fun l =>
    match l.span (fun c => !(c == Char.ofNat 46)) with
    | (ip, []) => (parseNat ip).map (fun n => (n : ℚ))
    | (ip, _ :: fp) =>
        if ip = [] ∧ fp = [] then none
        else
          match digitsOrEmpty ip, digitsOrEmpty fp with
          | some i, some f => some ((i : ℚ) + (f : ℚ) / (10 : ℚ) ^ fp.length)
          | _, _ => none
  match cs with
  | c :: rest =>
      if c = Char.ofNat 45 then (core rest).map Neg.neg
      else if c = Char.ofNat 43 then core rest
      else core cs
  | [] => none

/-- Digits of a natural number, most significant first (30 digits of fuel
cover every value the store can print). -/
def natCharsAux : ℕ → ℕ → List Char → List Char
  | 0, _, acc => acc
  | fuel + 1, n, acc =>
      let acc2 := Char.ofNat (48 + n % 10) :: acc
      if n < 10 then acc2 else natCharsAux fuel (n / 10) acc2

/-- Decimal representation of a natural number. -/
def natChars (n : ℕ) : List Char := natCharsAux 30 n []

/-- Decimal representation of an integer. -/
def intChars (i : ℤ) : List Char :=
  if i < 0 then Char.ofNat 45 :: natChars i.natAbs else natChars i.natAbs

/-- Model of Rust `format!("{:.6}", x)`: the value rounded to six decimal
places, zero padded (round half away from zero; the claims never exercise
an exact tie). -/
def fmt6 (q : ℚ) : List Char :=
  let n := roundAway (q * 1000000)
  let a := n.natAbs
  let ip := natChars (a / 1000000)
  let fp := natChars (a % 1000000)
  let fpPad := List.replicate (6 - fp.length) (Char.ofNat 48) ++ fp
  (if n < 0 then [Char.ofNat 45] else []) ++ ip ++ [Char.ofNat 46] ++ fpPad

/-- `AstroTrace` from src/astro.rs lines 15-28. -/
structure AstroTrace where
  key : String
  ema_drift : ℚ
  ema_res : ℚ
  stability : ℚ
  visits : ℕ
  last_ts : ℤ
  emo_tag : Bool
  sync_bias_drift : ℚ
  sync_bias_res : ℚ
  sync_stability : ℚ
  sync_visits : ℕ
deriving DecidableEq, Repr

/-- `AstroTrace::new` from src/astro.rs lines 31-45. -/
def AstroTrace.new (key : String) (now : ℤ) : AstroTrace :=
  { key := key, ema_drift := 0, ema_res := 0, stability := 0, visits := 0,
    last_ts := now, emo_tag := false, sync_bias_drift := 0, sync_bias_res := 0,
    sync_stability := 0, sync_visits := 0 }

/-- `AstroTrace::decay` from src/astro.rs lines 47-64
(`STABILITY_DECAY_PER_DAY = 0.08`, `STABILITY_THRESHOLD = 0.18`). -/
def AstroTrace.decay (t : AstroTrace) (now : ℤ) : AstroTrace :=
  if now ≤ t.last_ts then t
  else
    let elapsed := now - t.last_ts
    if elapsed ≤ 0 then t
    else
      let days := min ((elapsed : ℚ) / 86400) 30
      if days ≤ 0 then t
      else
        let decay := min (days * (2/25)) t.stability
        let t2 := { t with stability := max (t.stability - decay) 0 }
        if t2.stability < 9/50 then { t2 with emo_tag := false } else t2

/-- `AstroTrace::to_json_line` from src/astro.rs lines 66-81. -/
def AstroTrace.to_json_line (t : AstroTrace) : String :=
  String.mk ("\x7b\"key\":\"".data ++ t.key.data
    ++ "\",\"ema_drift\":".data ++ fmt6 t.ema_drift
    ++ ",\"ema_res\":".data ++ fmt6 t.ema_res
    ++ ",\"stability\":".data ++ fmt6 t.stability
    ++ ",\"visits\":".data ++ natChars t.visits
    ++ ",\"last_ts\":".data ++ intChars t.last_ts
    ++ ",\"emo_tag\":".data ++ (if t.emo_tag then "true".data else "false".data)
    ++ ",\"sync_bias_drift\":".data ++ fmt6 t.sync_bias_drift
    ++ ",\"sync_bias_res\":".data ++ fmt6 t.sync_bias_res
    ++ ",\"sync_stability\":".data ++ fmt6 t.sync_stability
    ++ ",\"sync_visits\":".data ++ natChars t.sync_visits
    ++ "\x7d".data)

/-- One `match key` arm of `AstroTrace::from_json_line` (src/astro.rs lines
94-109): `k` is the trimmed, quote-stripped field name, `v` the trimmed
value.  Required fields fail the whole parse on a bad value; the four sync
fields fall back to their defaults (`unwrap_or`). -/
def applyField (t : AstroTrace) (k v : List Char) : Option AstroTrace :=
  if k = "key".data then some { t with key := String.mk (trimQuotes v) }
  else if k = "ema_drift".data then (parseDec v).map (fun x => { t with ema_drift := x })
  else if k = "ema_res".data then (parseDec v).map (fun x => { t with ema_res := x })
  else if k = "stability".data then (parseDec v).map (fun x => { t with stability := x })
  else if k = "visits".data then (parseU32 v).map (fun x => { t with visits := x })
  else if k = "last_ts".data then (parseI64 v).map (fun x => { t with last_ts := x })
  else if k = "emo_tag".data then some { t with emo_tag := v == "true".data || v == "1".data }
  else if k = "sync_bias_drift".data then some { t with sync_bias_drift := (parseDec v).getD 0 }
  else if k = "sync_bias_res".data then some { t with sync_bias_res := (parseDec v).getD 0 }
  else if k = "sync_stability".data then some { t with sync_stability := (parseDec v).getD 0 }
  else if k = "sync_visits".data then some { t with sync_visits := (parseU32 v).getD 0 }
  else some t

/-- The field loop of `AstroTrace::from_json_line`: a part without a colon
aborts the parse (`kv.next()?`). -/
def parseParts (t : AstroTrace) : List (List Char) → Option AstroTrace
  | [] => some t
  | p :: ps =>
      match p.span (fun c => !(c == Char.ofNat 58)) with
      | (_, []) => none
      | (k, _ :: v) =>
          match applyField t (trimQuotes (trimChars k)) (trimChars v) with
          | some t2 => parseParts t2 ps
          | none => none

/-- `AstroTrace::from_json_line` from src/astro.rs lines 83-115. -/
def AstroTrace.from_json_line (line : String) : Option AstroTrace :=
  let trimmed := trimChars line.data
  if trimmed.head? = some lbrace ∧ trimmed.getLast? = some rbrace then
    let inner := (trimmed.drop 1).dropLast
    match parseParts (AstroTrace.new "" 0) (splitChar (Char.ofNat 44) inner) with
    | some t => if t.key = "" then none else some t
    | none => none
  else none

/-- `AstroAdvice` from src/astro.rs lines 118-124. -/
structure AstroAdvice where
  drift_bias : ℚ
  res_bias : ℚ
  pace_delta : ℚ
  pause_delta_ms : ℤ
deriving DecidableEq, Repr

/-- `SyncBias` from src/astro.rs lines 133-139. -/
structure SyncBias where
  drift_bias : ℚ
  res_bias : ℚ
  stability : ℚ
  visits : ℕ
deriving DecidableEq, Repr

/-- `clamp_bias` from src/astro.rs lines 358-360 (`SYNC_CLAMP = 0.2`). -/
def clamp_bias (v : ℚ) : ℚ := rclamp (-1/5) (1/5) v

/-- Association-list embedding of `HashMap::get`. -/
def lookupKey : List (String × AstroTrace) → String → Option AstroTrace
  | [], _ => none
  | p :: ps, k => if p.1 = k then some p.2 else lookupKey ps k

/-- Association-list embedding of `HashMap::insert` (replace or add). -/
def setKey : List (String × AstroTrace) → String → AstroTrace → List (String × AstroTrace)
  | [], k, t => [(k, t)]
  | p :: ps, k, t => if p.1 = k then (k, t) :: ps else p :: setKey ps k t

/-- Association-list embedding of `HashMap::remove`. -/
def removeKey : List (String × AstroTrace) → String → List (String × AstroTrace)
  | [], _ => []
  | p :: ps, k => if p.1 = k then removeKey ps k else p :: removeKey ps k

/-- Removal of the first occurrence of a key from the recency list
(the `position`/`remove` pair in `AstroStore::promote`). -/
def removeFirst : List String → String → List String
  | [], _ => []
  | x :: xs, k => if x = k then xs else x :: removeFirst xs k

/-- `AstroStore::promote` from src/astro.rs lines 176-181: most recent first. -/
def promote (order : List String) (k : String) : List String :=
  k :: removeFirst order k

/-- The `while` loop of `AstroStore::evict_if_needed` (src/astro.rs lines
183-189), with explicit structural fuel; `order.length` steps of fuel make
the fuelled loop equal to the unbounded loop. -/
def evictFuel : ℕ → List (String × AstroTrace) → List String → ℕ →
    List (String × AstroTrace) × List String
  | 0, cache, order, _ => (cache, order)
  | fuel + 1, cache, order, cap =>
      if cap < order.length then
        match order.getLast? with
        | some k => evictFuel fuel (removeKey cache k) order.dropLast cap
        | none => (cache, order)
      else (cache, order)

/-- `AstroStore` from src/astro.rs lines 141-146; the append-only file at
`path` is modelled by the list of its lines (`log`), appends always
succeed (a failed append is reported and swallowed in Rust, leaving the
in-memory state as modelled here). -/
structure AstroStore where
  cache : List (String × AstroTrace)
  order : List String
  capacity : ℕ
  log : List String
deriving DecidableEq, Repr

/-- `AstroStore::insert_trace` from src/astro.rs lines 169-174. -/
def AstroStore.insert_trace (s : AstroStore) (t : AstroTrace) : AstroStore :=
  let cache := setKey s.cache t.key t
  let order := promote s.order t.key
  let ev := evictFuel order.length cache order s.capacity
  { s with cache := ev.1, order := ev.2 }

/-- `AstroStore::load` from src/astro.rs lines 149-167: replay every
parseable line of the durable log (capacity floored at 1). -/
def AstroStore.load (lines : List String) (capacity : ℕ) : AstroStore :=
  let init : AstroStore := { cache := [], order := [], capacity := max capacity 1, log := lines }
  lines.foldl
    (fun st line =>
      match AstroTrace.from_json_line line with
      | some t => st.insert_trace t
      | none => st)
    init

/-- `AstroStore::persist_trace` from src/astro.rs lines 301-309: in-memory
insert/promote/evict, then durable append. -/
def AstroStore.persist_trace (s : AstroStore) (t : AstroTrace) : AstroStore :=
  let s2 := s.insert_trace t
  { s2 with log := s2.log ++ [t.to_json_line] }

/-- `AstroStore::recall` from src/astro.rs lines 191-223
(`STABILITY_THRESHOLD = 0.18`).  The in-place `get_mut` mutation on the
below-threshold path is the `setKey` on that branch. -/
def AstroStore.recall (s : AstroStore) (k : String) (now : ℤ) :
    Option AstroAdvice × AstroStore :=
  match lookupKey s.cache k with
  | none => (none, s)
  | some t =>
      let t1 := t.decay now
      if t1.stability < 9/50 then (none, { s with cache := setKey s.cache k t1 })
      else
        let t2 := { t1 with last_ts := now }
        let visit_factor := (min t2.visits 12 : ℚ) / 12
        let intensity0 := t2.stability * (7/10) + visit_factor * (1/5) + t2.ema_res * (1/10)
        let intensity1 := if t2.emo_tag then intensity0 + 3/25 else intensity0
        let intensity := rclamp 0 1 intensity1
        let advice : AstroAdvice :=
          { drift_bias := -1/50 - (1/25) * intensity
            res_bias := 1/50 + (1/25) * intensity
            pace_delta := -1/100 - (3/100) * intensity
            pause_delta_ms := roundAway (10 + 30 * intensity) }
        (some advice, { s with cache := setKey s.cache k t2, order := promote s.order k })

/-- `AstroStore::consolidate` from src/astro.rs lines 225-259
(`DEFAULT_ALPHA = 0.22`). -/
def AstroStore.consolidate (s : AstroStore) (k : String) (drift res : ℚ)
    (emo_tag : Bool) (now : ℤ) : AstroStore :=
  let t0 := (lookupKey s.cache k).getD (AstroTrace.new k now)
  let t1 := { t0 with visits := satAddU32 t0.visits }
  let t2 :=
    if t1.visits = 1 then { t1 with ema_drift := drift, ema_res := res }
    else
      { t1 with
        ema_drift := (11/50) * drift + (1 - 11/50) * t1.ema_drift
        ema_res := (11/50) * res + (1 - 11/50) * t1.ema_res }
  let t3 := { t2 with ema_drift := clamp01 t2.ema_drift, ema_res := clamp01 t2.ema_res }
  let boost1 : ℚ := if |t3.ema_res - res| < 1/20 then 3/50 + 1/100 else 3/50
  let boost2 := if emo_tag then boost1 + 1/20 else boost1
  let t4 :=
    if emo_tag then { t3 with emo_tag := true }
    else { t3 with emo_tag := t3.emo_tag && decide ((9:ℚ)/50 < t3.stability) }
  let t5 := { t4 with stability := rclamp 0 1 (t4.stability + boost2), last_ts := now }
  s.persist_trace t5

/-- `AstroStore::fold_sync_delta` from src/astro.rs lines 261-286. -/
def AstroStore.fold_sync_delta (s : AstroStore) (k : String)
    (drift_delta res_delta : ℚ) (now : ℤ) : AstroStore :=
  if drift_delta = 0 ∧ res_delta = 0 then s
  else
    let t0 := (lookupKey s.cache k).getD (AstroTrace.new k now)
    let t1 := { t0 with sync_visits := satAddU32 t0.sync_visits }
    let t2 :=
      { t1 with
        sync_bias_drift := clamp_bias (t1.sync_bias_drift + drift_delta)
        sync_bias_res := clamp_bias (t1.sync_bias_res + res_delta) }
    let score := rclamp 0 1 (1 - (|drift_delta| + |res_delta|) * (1/2))
    let t3 :=
      if t2.sync_visits ≤ 1 then { t2 with sync_stability := score }
      else
        { t2 with
          sync_stability :=
            (t2.sync_stability * ((t2.sync_visits : ℚ) - 1) + score) / (t2.sync_visits : ℚ) }
    let t4 := { t3 with sync_stability := rclamp 0 1 t3.sync_stability, last_ts := now }
    s.persist_trace t4

/-- `AstroStore::suggest_sync` from src/astro.rs lines 288-299. -/
def AstroStore.suggest_sync (s : AstroStore) (theme : String) : Option SyncBias :=
  match lookupKey s.cache theme with
  | none => none
  | some t =>
      if t.sync_visits = 0 then none
      else
        some { drift_bias := clamp_bias t.sync_bias_drift
               res_bias := clamp_bias t.sync_bias_res
               stability := rclamp 0 1 t.sync_stability
               visits := t.sync_visits }

/-- The mutating store entry points, as a single operation type for
stating invariants over arbitrary operation sequences. -/
inductive AstroOp where
  | recallOp (k : String) (now : ℤ)
  | consolidateOp (k : String) (drift res : ℚ) (emo_tag : Bool) (now : ℤ)
  | foldOp (k : String) (drift_delta res_delta : ℚ) (now : ℤ)
deriving Repr

/-- Apply one operation to the store. -/
def applyOp (s : AstroStore) : AstroOp → AstroStore
  | AstroOp.recallOp k now => (s.recall k now).2
  | AstroOp.consolidateOp k d r e now => s.consolidate k d r e now
  | AstroOp.foldOp k dd dr now => s.fold_sync_delta k dd dr now

/-- Apply a sequence of operations, first to last. -/
def applyOps (s : AstroStore) (ops : List AstroOp) : AstroStore :=
  ops.foldl applyOp s

/-! ## Cache and recency-list lemmas -/

/-- Spec-side well-formedness from the spec's AstroStore invariant: the
recency list has no duplicates, it lists exactly the cached keys, and it
never exceeds capacity. -/
def StoreWF (s : AstroStore) : Prop :=
  s.order.Nodup ∧ (∀ k, (lookupKey s.cache k).isSome = true ↔ k ∈ s.order) ∧
  s.order.length ≤ s.capacity

/-! ## Boundedness of cached traces -/

/-- Spec-side bounds from the spec's AstroTrace invariant: stability and
the EMA fields in [0,1], the sync-bias fields in [-0.2, 0.2]. -/
def traceBounded (t : AstroTrace) : Prop :=
  0 ≤ t.stability ∧ t.stability ≤ 1 ∧ 0 ≤ t.ema_drift ∧ t.ema_drift ≤ 1 ∧
  0 ≤ t.ema_res ∧ t.ema_res ≤ 1 ∧ -1/5 ≤ t.sync_bias_drift ∧ t.sync_bias_drift ≤ 1/5 ∧
  -1/5 ≤ t.sync_bias_res ∧ t.sync_bias_res ≤ 1/5

/-- Spec-side: every trace sitting in the cache is bounded. -/
def StoreBounded (s : AstroStore) : Prop :=
  ∀ k t, lookupKey s.cache k = some t → traceBounded t

/-! ## Claim theorems for the store -/

def badLogLine : String := "\x7b\"key\":\"k\",\"stability\":5.0\x7d"

def badTrace : AstroTrace :=
  { key := "k", ema_drift := 0, ema_res := 0, stability := 5, visits := 0, last_ts := 0,
    emo_tag := false, sync_bias_drift := 0, sync_bias_res := 0, sync_stability := 0,
    sync_visits := 0 }

def wTrace : AstroTrace :=
  { key := "k", ema_drift := 2/5, ema_res := 7/10, stability := 3/25, visits := 1, last_ts := 10,
    emo_tag := true, sync_bias_drift := 0, sync_bias_res := 0, sync_stability := 0,
    sync_visits := 0 }

def lruAfter : AstroStore :=
  ((((AstroStore.load [] 2).consolidate "a" (2/5) (3/5) false 1).consolidate
      "b" (3/10) (7/10) true 2).consolidate "b" (8/25) (18/25) true 3).consolidate
    "c" (1/5) (4/5) false 4

def lruReloaded : AstroStore := AstroStore.load lruAfter.log 2

/-- Spec-side: the intensity blend of the spec's recall step (stability
weight 0.7, visit ramp capped at 12 weight 0.2, EMA resonance weight 0.1,
flat +0.12 with the emotional tag, clamped to [0,1]). -/
def recallIntensity (t : AstroTrace) : ℚ :=
  rclamp 0 1 (t.stability * (7/10) + (min t.visits 12 : ℚ) / 12 * (1/5) + t.ema_res * (1/10) +
    (if t.emo_tag then 3/25 else 0))

/-- Spec-side: the advice fields as linear functions of intensity. -/
def adviceOf (t : AstroTrace) : AstroAdvice :=
  { drift_bias := -1/50 - (1/25) * recallIntensity t
    res_bias := 1/50 + (1/25) * recallIntensity t
    pace_delta := -1/100 - (3/100) * recallIntensity t
    pause_delta_ms := roundAway (10 + 30 * recallIntensity t) }

/-- Spec-side: decayed stability as the spec words it (elapsed days capped
at 30, times the per-day rate, subtracted and floored at 0). -/
def decayedStability (t : AstroTrace) (now : ℤ) : ℚ :=
  max (t.stability - (min (((now - t.last_ts : ℤ) : ℚ) / 86400) 30) * (2/25)) 0

def hitStore : AstroStore :=
  (((AstroStore.load [] 4).consolidate "k" (2/5) (7/10) false 100).consolidate
      "k" (2/5) (7/10) false 110).consolidate "k" (2/5) (7/10) false 120

def hitTrace : AstroTrace :=
  { key := "k", ema_drift := 2/5, ema_res := 7/10, stability := 21/100, visits := 3,
    last_ts := 120, emo_tag := false, sync_bias_drift := 0, sync_bias_res := 0,
    sync_stability := 0, sync_visits := 0 }

def missStore : AstroStore := (AstroStore.load [] 4).consolidate "m" (2/5) (7/10) false 100

def missTrace : AstroTrace :=
  { key := "m", ema_drift := 2/5, ema_res := 7/10, stability := 7/100, visits := 1,
    last_ts := 100, emo_tag := false, sync_bias_drift := 0, sync_bias_res := 0,
    sync_stability := 0, sync_visits := 0 }

theorem rclamp_le_hi (lo hi x : ℚ) : rclamp lo hi x ≤ hi := min_le_left _ _

theorem lo_le_rclamp (lo hi x : ℚ) (h : lo ≤ hi) : lo ≤ rclamp lo hi x :=
  le_min h (le_max_left _ _)

theorem push_subthreshold (s : Stabilizer) (d r : ℚ)
    (hne : s.ring_drift ≠ [])
    (hw : rclamp 0 1 d < s.cfg.warm_drift)
    (hwh : s.cfg.warm_drift ≤ s.cfg.hot_drift) :
    (s.push d r).state = (match s.state with
      | EmoState.Overheat =>
          if s.steps_in_state + 1 < s.cfg.cool_steps then EmoState.Cooldown else EmoState.Normal
      | EmoState.Cooldown =>
          if s.cfg.cool_steps ≤ s.steps_in_state + 1 then EmoState.Normal else EmoState.Cooldown
      | _ => EmoState.Normal)
    ∧ (s.push d r).steps_in_state =
        (if (match s.state with
          | EmoState.Overheat =>
              if s.steps_in_state + 1 < s.cfg.cool_steps then EmoState.Cooldown else EmoState.Normal
          | EmoState.Cooldown =>
              if s.cfg.cool_steps ≤ s.steps_in_state + 1 then EmoState.Normal else EmoState.Cooldown
          | _ => EmoState.Normal) = s.state
         then min (s.steps_in_state + 1) (s.cfg.cool_steps * 2) else 0)
    ∧ (s.push d r).cfg = s.cfg
    ∧ (s.push d r).ring_drift ≠ [] := by
  have h1 : ¬(s.cfg.hot_drift ≤ rclamp 0 1 d ∧ rclamp 0 1 r ≤ s.cfg.low_res) := by
    intro hc
    exact absurd (le_trans hwh hc.1) (not_le.mpr hw)
  have h2 : ¬(s.cfg.warm_drift ≤ rclamp 0 1 d) := not_le.mpr hw
  have hlen : (s.ring_drift.set s.idx (rclamp 0 1 d)) ≠ [] := by
    intro hc
    apply hne
    have := congrArg List.length hc
    simp at this
    exact this
  unfold Stabilizer.push
  rw [if_neg hne]
  simp only [if_neg h1, if_neg h2]
  by_cases hst : (match s.state with
      | EmoState.Overheat =>
          if s.steps_in_state + 1 < s.cfg.cool_steps then EmoState.Cooldown else EmoState.Normal
      | EmoState.Cooldown =>
          if s.cfg.cool_steps ≤ s.steps_in_state + 1 then EmoState.Normal else EmoState.Cooldown
      | _ => EmoState.Normal) = s.state
  · rw [if_neg (by simp [hst] : ¬¬(_ = s.state))]
    simp [hst, hlen]
  · rw [if_pos hst]
    simp [hst, hlen]

/-- C1 (counterexample): with the test configuration (cool_steps = 3), after
the Stabilizer enters Overheat the third consecutive sub-threshold push still
leaves the state Cooldown, not Normal as the claim requires. -/
theorem cooldown_counterexample :
    testStabOverheat.state = EmoState.Overheat ∧
    testStabOverheat.steps_in_state = 0 ∧
    (testStabOverheat.push (3/10) (3/4)).state = EmoState.Cooldown ∧
    ((testStabOverheat.push (3/10) (3/4)).push (3/10) (3/4)).state = EmoState.Cooldown ∧
    (((testStabOverheat.push (3/10) (3/4)).push (3/10) (3/4)).push (3/10) (3/4)).state =
      EmoState.Cooldown ∧
    EmoState.Cooldown ≠ EmoState.Normal := by
  with_unfolding_all decide

/-- C1 (amended): after the Stabilizer enters Overheat (steps_in_state = 0),
with cool_steps = 3, exactly four consecutive sub-threshold pushes (clamped
drift below warm_drift, warm_drift ≤ hot_drift) are required before push
returns the state to Normal: the first three leave Cooldown, the fourth
transitions to Normal. -/
theorem cooldown_exit_amended (s : Stabilizer) (d1 r1 d2 r2 d3 r3 d4 r4 : ℚ)
    (hst : s.state = EmoState.Overheat)
    (hsteps : s.steps_in_state = 0)
    (hcool : s.cfg.cool_steps = 3)
    (hne : s.ring_drift ≠ [])
    (hwh : s.cfg.warm_drift ≤ s.cfg.hot_drift)
    (h1 : rclamp 0 1 d1 < s.cfg.warm_drift)
    (h2 : rclamp 0 1 d2 < s.cfg.warm_drift)
    (h3 : rclamp 0 1 d3 < s.cfg.warm_drift)
    (h4 : rclamp 0 1 d4 < s.cfg.warm_drift) :
    (s.push d1 r1).state = EmoState.Cooldown ∧
    ((s.push d1 r1).push d2 r2).state = EmoState.Cooldown ∧
    (((s.push d1 r1).push d2 r2).push d3 r3).state = EmoState.Cooldown ∧
    ((((s.push d1 r1).push d2 r2).push d3 r3).push d4 r4).state = EmoState.Normal := by
  obtain ⟨e1, t1, c1, n1⟩ := push_subthreshold s d1 r1 hne h1 hwh
  rw [hst, hsteps, hcool] at e1 t1
  simp at e1 t1
  obtain ⟨e2, t2, c2, n2⟩ :=
    push_subthreshold (s.push d1 r1) d2 r2 n1 (by rw [c1]; exact h2) (by rw [c1]; exact hwh)
  rw [e1, t1, c1, hcool] at e2 t2
  simp at e2 t2
  obtain ⟨e3, t3, c3, n3⟩ :=
    push_subthreshold ((s.push d1 r1).push d2 r2) d3 r3 n2
      (by rw [c2, c1]; exact h3) (by rw [c2, c1]; exact hwh)
  rw [e2, t2, c2, c1, hcool] at e3 t3
  simp at e3 t3
  obtain ⟨e4, t4, c4, n4⟩ :=
    push_subthreshold (((s.push d1 r1).push d2 r2).push d3 r3) d4 r4 n3
      (by rw [c3, c2, c1]; exact h4) (by rw [c3, c2, c1]; exact hwh)
  rw [e3, t3, c3, c2, c1, hcool] at e4
  simp at e4
  exact ⟨e1, e2, e3, e4⟩

/-- C1 (witness): the amended cooldown-exit theorem applied to the concrete
post-Overheat stabilizer of the repository test. -/
theorem cooldown_exit_amended_witness :
    (testStabOverheat.push (3/10) (3/4)).state = EmoState.Cooldown ∧
    ((testStabOverheat.push (3/10) (3/4)).push (3/10) (3/4)).state = EmoState.Cooldown ∧
    (((testStabOverheat.push (3/10) (3/4)).push (3/10) (3/4)).push (3/10) (3/4)).state =
      EmoState.Cooldown ∧
    ((((testStabOverheat.push (3/10) (3/4)).push (3/10) (3/4)).push (3/10) (3/4)).push
        (3/10) (3/4)).state = EmoState.Normal := by
  refine cooldown_exit_amended testStabOverheat (3/10) (3/4) (3/10) (3/4) (3/10) (3/4) (3/10) (3/4)
    ?_ ?_ ?_ ?_ ?_ ?_ ?_ ?_ ?_ <;> with_unfolding_all decide

theorem iclamp_le_hi (lo hi x : ℤ) : iclamp lo hi x ≤ hi := min_le_left _ _

theorem lo_le_iclamp (lo hi x : ℤ) (h : lo ≤ hi) : lo ≤ iclamp lo hi x :=
  le_min h (le_max_left _ _)

/-- C2 (counterexample): at lr_fast = 0.15, baselines.res = 0.65,
resonance = 0.5 the code returns pause 1 while the claimed
clamp(round(lr_fast * d_res * 80)) formula gives 2: the cast truncates. -/
theorem pause_round_counterexample :
    (testSyncState.step 0 (1/2) EmoState.Normal testSyncCfg).1.pause = 1 ∧
    iclamp (-20) 40 (roundAway (testSyncCfg.lr_fast *
      (min 1 (max (-1) (testSyncState.baselines.res - 1/2))) * 80)) = 2 ∧
    (1 : ℤ) ≠ 2 := by
  with_unfolding_all decide

/-- C2 (amended): for every call to SyncState.step the returned pause equals
clamp(trunc(lr_fast * d_res * 80), -20, 40) with d_res = clamp(baseline_res -
resonance, -1, 1) and truncation toward zero, plus the Overheat penalty when
the temperament state is Overheat. -/
theorem pause_truncates (s : SyncState) (drift res : ℚ) (st : EmoState) (cfg : SyncCfg) :
    (s.step drift res st cfg).1.pause =
      iclamp (-20) 40 (truncToInt (cfg.lr_fast * (min 1 (max (-1) (s.baselines.res - res))) * 80)) +
        (if st = EmoState.Overheat then 10 else 0) := by
  unfold SyncState.step
  by_cases h : st = EmoState.Overheat <;> simp [h]

/-- C4: for every (arbitrarily extreme) rational input, Stabilizer.push
leaves ema_drift and ema_res in [0,1]; and for every input to SyncState.step
with a nonnegative clamp_step, the four corrections lie within their
documented clamp ranges (shifted by the fixed documented Overheat offset when
the state is Overheat). -/
theorem outputs_bounded :
    (∀ (s : Stabilizer) (d r : ℚ), s.ring_drift ≠ [] →
      0 ≤ (s.push d r).ema_drift ∧ (s.push d r).ema_drift ≤ 1 ∧
      0 ≤ (s.push d r).ema_res ∧ (s.push d r).ema_res ≤ 1) ∧
    (∀ (s : SyncState) (d r : ℚ) (st : EmoState) (cfg : SyncCfg), 0 ≤ cfg.clamp_step →
      -cfg.clamp_step - (if st = EmoState.Overheat then 1/100 else 0) ≤ (s.step d r st cfg).1.pace ∧
      (s.step d r st cfg).1.pace ≤ cfg.clamp_step - (if st = EmoState.Overheat then 1/100 else 0) ∧
      -20 + (if st = EmoState.Overheat then 10 else 0) ≤ (s.step d r st cfg).1.pause ∧
      (s.step d r st cfg).1.pause ≤ 40 + (if st = EmoState.Overheat then 10 else 0) ∧
      0 ≤ (s.step d r st cfg).1.res_boost ∧ (s.step d r st cfg).1.res_boost ≤ cfg.clamp_step ∧
      0 ≤ (s.step d r st cfg).1.drift_relief ∧ (s.step d r st cfg).1.drift_relief ≤ cfg.clamp_step) := by
  constructor
  · intro s d r hne
    unfold Stabilizer.push
    rw [if_neg hne]
    dsimp only
    split_ifs
    all_goals
      exact ⟨lo_le_rclamp _ _ _ (by norm_num), rclamp_le_hi _ _ _,
        lo_le_rclamp _ _ _ (by norm_num), rclamp_le_hi _ _ _⟩
  · intro s d r st cfg hc
    have hcc : -cfg.clamp_step ≤ cfg.clamp_step := by linarith
    unfold SyncState.step
    by_cases h : st = EmoState.Overheat <;> simp only [h, if_pos, if_neg, reduceIte] <;>
      refine ⟨?_, ?_, ?_, ?_, ?_, ?_, ?_, ?_⟩
    · have := lo_le_rclamp (-cfg.clamp_step) cfg.clamp_step
        (-cfg.lr_fast * min 1 (max (-1) (d - s.baselines.drift))) hcc
      linarith
    · have := rclamp_le_hi (-cfg.clamp_step) cfg.clamp_step
        (-cfg.lr_fast * min 1 (max (-1) (d - s.baselines.drift)))
      linarith
    · have := lo_le_iclamp (-20) 40
        (truncToInt (cfg.lr_fast * min 1 (max (-1) (s.baselines.res - r)) * 80)) (by norm_num)
      omega
    · have := iclamp_le_hi (-20) 40
        (truncToInt (cfg.lr_fast * min 1 (max (-1) (s.baselines.res - r)) * 80))
      omega
    · exact lo_le_rclamp _ _ _ hc
    · exact rclamp_le_hi _ _ _
    · exact lo_le_rclamp _ _ _ hc
    · exact rclamp_le_hi _ _ _
    · have := lo_le_rclamp (-cfg.clamp_step) cfg.clamp_step
        (-cfg.lr_fast * min 1 (max (-1) (d - s.baselines.drift))) hcc
      linarith
    · have := rclamp_le_hi (-cfg.clamp_step) cfg.clamp_step
        (-cfg.lr_fast * min 1 (max (-1) (d - s.baselines.drift)))
      linarith
    · have := lo_le_iclamp (-20) 40
        (truncToInt (cfg.lr_fast * min 1 (max (-1) (s.baselines.res - r)) * 80)) (by norm_num)
      omega
    · have := iclamp_le_hi (-20) 40
        (truncToInt (cfg.lr_fast * min 1 (max (-1) (s.baselines.res - r)) * 80))
      omega
    · exact lo_le_rclamp _ _ _ hc
    · exact rclamp_le_hi _ _ _
    · exact lo_le_rclamp _ _ _ hc
    · exact rclamp_le_hi _ _ _

/-- C4 (witness): the bounds theorem applied at concrete extreme inputs. -/
theorem outputs_bounded_witness :
    (0 ≤ (testStabOverheat.push 5 (-7)).ema_drift ∧ (testStabOverheat.push 5 (-7)).ema_drift ≤ 1 ∧
      0 ≤ (testStabOverheat.push 5 (-7)).ema_res ∧ (testStabOverheat.push 5 (-7)).ema_res ≤ 1) ∧
    (-testSyncCfg.clamp_step - (if EmoState.Normal = EmoState.Overheat then 1/100 else 0) ≤
        (testSyncState.step 99 (-99) EmoState.Normal testSyncCfg).1.pace ∧
      (testSyncState.step 99 (-99) EmoState.Normal testSyncCfg).1.pace ≤
        testSyncCfg.clamp_step - (if EmoState.Normal = EmoState.Overheat then 1/100 else 0)) := by
  refine ⟨outputs_bounded.1 testStabOverheat 5 (-7) ?_, ?_⟩
  · with_unfolding_all decide
  · have h := outputs_bounded.2 testSyncState 99 (-99) EmoState.Normal testSyncCfg
      (by with_unfolding_all decide)
    exact ⟨h.1, h.2.1⟩

/-- C5: with temperament Overheat, SyncState.step returns exactly the
clamped fast-path pace minus 0.01 and the clamped fast-path pause plus 10 ms
(all other outputs and the successor state unchanged); at a concrete input
the final pace is -clamp_step - 0.01, beyond the nominal clamp bound, and the
final pause is 50 ms, beyond the nominal 40 ms bound. -/
theorem overheat_penalty_after_clamp :
    (∀ (s : SyncState) (d r : ℚ) (cfg : SyncCfg),
      (s.step d r EmoState.Overheat cfg).1.pace = (s.step d r EmoState.Normal cfg).1.pace - 1/100 ∧
      (s.step d r EmoState.Overheat cfg).1.pause = (s.step d r EmoState.Normal cfg).1.pause + 10 ∧
      (s.step d r EmoState.Overheat cfg).1.res_boost =
        (s.step d r EmoState.Normal cfg).1.res_boost ∧
      (s.step d r EmoState.Overheat cfg).1.drift_relief =
        (s.step d r EmoState.Normal cfg).1.drift_relief ∧
      (s.step d r EmoState.Overheat cfg).2 = (s.step d r EmoState.Normal cfg).2) ∧
    ((penaltySyncState.step 1 0 EmoState.Overheat penaltySyncCfg).1.pace =
        -penaltySyncCfg.clamp_step - 1/100 ∧
      -penaltySyncCfg.clamp_step - 1/100 < -penaltySyncCfg.clamp_step ∧
      (penaltySyncState.step 1 0 EmoState.Overheat penaltySyncCfg).1.pause = 50 ∧
      (40 : ℤ) < 50) := by
  constructor
  · intro s d r cfg
    unfold SyncState.step
    simp
  · with_unfolding_all decide

/-- C9: to_slow_increments returns (0,0) when the step count is zero and
otherwise the clamped mean-residual formulas; both components always lie
within [-0.03, 0.03], however large the accumulators. -/
theorem slow_increments_spec (s : SyncState) (cfg : SyncCfg) :
    s.to_slow_increments cfg =
      (if s.steps = 0 then (0, 0)
       else (rclamp (-3/100) (3/100) (-(s.accum_drift / (s.steps : ℚ)) * cfg.lr_slow),
             rclamp (-3/100) (3/100) (s.accum_res / (s.steps : ℚ) * cfg.lr_slow))) ∧
    -3/100 ≤ (s.to_slow_increments cfg).1 ∧ (s.to_slow_increments cfg).1 ≤ 3/100 ∧
    -3/100 ≤ (s.to_slow_increments cfg).2 ∧ (s.to_slow_increments cfg).2 ≤ 3/100 := by
  constructor
  · rfl
  · unfold SyncState.to_slow_increments
    by_cases h : s.steps = 0
    · simp only [h, reduceIte]
      norm_num
    · simp only [h, reduceIte]
      exact ⟨lo_le_rclamp _ _ _ (by norm_num), rclamp_le_hi _ _ _,
        lo_le_rclamp _ _ _ (by norm_num), rclamp_le_hi _ _ _⟩

theorem lookupKey_setKey_self (c : List (String × AstroTrace)) (k : String) (t : AstroTrace) :
    lookupKey (setKey c k t) k = some t := by
  induction c with
  | nil => simp [setKey, lookupKey]
  | cons p ps ih =>
      by_cases h : p.1 = k
      · simp [setKey, h, lookupKey]
      · simp [setKey, h, lookupKey, ih]

theorem lookupKey_setKey_ne (c : List (String × AstroTrace)) (k : String) (t : AstroTrace)
    (x : String) (h : x ≠ k) : lookupKey (setKey c k t) x = lookupKey c x := by
  induction c with
  | nil => simp [setKey, lookupKey, Ne.symm h]
  | cons p ps ih =>
      by_cases hp : p.1 = k
      · subst hp
        simp [setKey, lookupKey, Ne.symm h, h]
      · simp [setKey, hp, lookupKey, ih]

theorem lookupKey_removeKey_self (c : List (String × AstroTrace)) (k : String) :
    lookupKey (removeKey c k) k = none := by
  induction c with
  | nil => rfl
  | cons p ps ih =>
      by_cases hp : p.1 = k
      · simpa [removeKey, hp] using ih
      · simp [removeKey, hp, lookupKey, ih]

theorem lookupKey_removeKey_ne (c : List (String × AstroTrace)) (k x : String) (h : x ≠ k) :
    lookupKey (removeKey c k) x = lookupKey c x := by
  induction c with
  | nil => rfl
  | cons p ps ih =>
      by_cases hp : p.1 = k
      · simp [removeKey, hp, lookupKey, Ne.symm h, ih]
      · simp [removeKey, hp, lookupKey, ih]

theorem mem_removeFirst_ne (o : List String) (k x : String) (h : x ≠ k) :
    x ∈ removeFirst o k ↔ x ∈ o := by
  induction o with
  | nil => simp [removeFirst]
  | cons a as ih =>
      by_cases ha : a = k
      · subst ha
        simp [removeFirst, List.mem_cons, h, ih]
      · simp [removeFirst, ha, List.mem_cons, ih]

theorem not_mem_removeFirst_self (o : List String) (k : String) (h : o.Nodup) :
    k ∉ removeFirst o k := by
  induction o with
  | nil => simp [removeFirst]
  | cons a as ih =>
      by_cases ha : a = k
      · subst ha
        simpa [removeFirst] using (List.nodup_cons.mp h).1
      · have h2 := (List.nodup_cons.mp h).2
        simp [removeFirst, ha, List.mem_cons, Ne.symm ha, ih h2]

theorem nodup_removeFirst (o : List String) (k : String) (h : o.Nodup) :
    (removeFirst o k).Nodup := by
  induction o with
  | nil => simp [removeFirst]
  | cons a as ih =>
      obtain ⟨h1, h2⟩ := List.nodup_cons.mp h
      by_cases ha : a = k
      · simpa [removeFirst, ha] using h2
      · rw [show removeFirst (a :: as) k = a :: removeFirst as k by simp [removeFirst, ha]]
        refine List.nodup_cons.mpr ⟨?_, ih h2⟩
        intro hmem
        exact h1 ((mem_removeFirst_ne as k a ha).mp hmem)

theorem length_removeFirst_mem (o : List String) (k : String) (h : k ∈ o) :
    (removeFirst o k).length + 1 = o.length := by
  induction o with
  | nil => cases h
  | cons a as ih =>
      by_cases ha : a = k
      · simp [removeFirst, ha]
      · have hk : k ∈ as := by
          rcases List.mem_cons.mp h with h1 | h1
          · exact absurd h1.symm ha
          · exact h1
        simp [removeFirst, ha, ih hk]

theorem length_removeFirst_le (o : List String) (k : String) :
    (removeFirst o k).length ≤ o.length := by
  induction o with
  | nil => simp [removeFirst]
  | cons a as ih =>
      by_cases ha : a = k
      · simp [removeFirst, ha]
      · simpa [removeFirst, ha] using Nat.succ_le_succ ih

theorem nodup_promote (o : List String) (k : String) (h : o.Nodup) :
    (promote o k).Nodup :=
  List.nodup_cons.mpr ⟨not_mem_removeFirst_self o k h, nodup_removeFirst o k h⟩

theorem mem_promote (o : List String) (k x : String) :
    x ∈ promote o k ↔ x = k ∨ x ∈ o := by
  by_cases hx : x = k
  · simp [promote, hx]
  · simp [promote, List.mem_cons, hx, mem_removeFirst_ne o k x hx]

theorem length_promote_le (o : List String) (k : String) :
    (promote o k).length ≤ o.length + 1 := by
  simpa [promote] using Nat.succ_le_succ (length_removeFirst_le o k)

theorem length_promote_mem (o : List String) (k : String) (h : k ∈ o) :
    (promote o k).length = o.length := by
  simpa [promote] using length_removeFirst_mem o k h

theorem isSome_lookupKey_setKey (c : List (String × AstroTrace)) (k : String) (t : AstroTrace)
    (x : String) :
    (lookupKey (setKey c k t) x).isSome = true ↔ x = k ∨ (lookupKey c x).isSome = true := by
  by_cases hx : x = k
  · subst hx
    simp [lookupKey_setKey_self]
  · simp [lookupKey_setKey_ne c k t x hx, hx]

theorem evictFuel_spec (fuel : ℕ) :
    ∀ (cache : List (String × AstroTrace)) (order : List String) (cap : ℕ),
      order.length ≤ fuel → order.Nodup →
      (evictFuel fuel cache order cap).2 = order.take cap ∧
      ∀ x, lookupKey (evictFuel fuel cache order cap).1 x =
        if x ∈ order.drop cap then none else lookupKey cache x := by
  induction fuel with
  | zero =>
      intro cache order cap hf hn
      have ho : order = [] := List.length_eq_zero.mp (Nat.le_zero.mp hf)
      subst ho
      simp [evictFuel]
  | succ fuel ih =>
      intro cache order cap hf hn
      by_cases hlt : cap < order.length
      · have hne : order ≠ [] := by
          intro he
          rw [he] at hlt
          simp at hlt
        simp only [evictFuel, if_pos hlt, List.getLast?_eq_getLast order hne]
        have hf2 : order.dropLast.length ≤ fuel := by
          rw [List.length_dropLast]
          omega
        have hn2 : order.dropLast.Nodup := hn.sublist (List.dropLast_sublist order)
        obtain ⟨ho, hc⟩ := ih (removeKey cache (order.getLast hne)) order.dropLast cap hf2 hn2
        have hsplit : order.dropLast ++ [order.getLast hne] = order :=
          List.dropLast_append_getLast hne
        have hcap_le : cap ≤ order.dropLast.length := by
          rw [List.length_dropLast]
          omega
        constructor
        · rw [ho]
          conv_rhs => rw [← hsplit]
          rw [List.take_append_of_le_length hcap_le]
        · intro x
          rw [hc x]
          conv_rhs => rw [← hsplit]
          rw [List.drop_append_of_le_length hcap_le]
          by_cases hd : x ∈ order.dropLast.drop cap
          · simp [hd]
          · by_cases hxk : x = order.getLast hne
            · simp [hd, ← hxk, lookupKey_removeKey_self]
            · simp [hd, hxk, lookupKey_removeKey_ne cache (order.getLast hne) x hxk]
      · simp only [evictFuel, if_neg hlt]
        constructor
        · exact (List.take_of_length_le (le_of_not_lt hlt)).symm
        · intro x
          rw [List.drop_eq_nil_of_le (le_of_not_lt hlt)]
          simp

theorem insert_trace_wf (s : AstroStore) (t : AstroTrace) (h : StoreWF s) :
    StoreWF (s.insert_trace t) := by
  obtain ⟨hn, hcor, hlen⟩ := h
  have hn2 : (promote s.order t.key).Nodup := nodup_promote _ _ hn
  obtain ⟨ho, hc⟩ := evictFuel_spec (promote s.order t.key).length
    (setKey s.cache t.key t) (promote s.order t.key) s.capacity le_rfl hn2
  have e1 : (s.insert_trace t).order =
      (evictFuel (promote s.order t.key).length (setKey s.cache t.key t)
        (promote s.order t.key) s.capacity).2 := rfl
  have e2 : (s.insert_trace t).cache =
      (evictFuel (promote s.order t.key).length (setKey s.cache t.key t)
        (promote s.order t.key) s.capacity).1 := rfl
  have e3 : (s.insert_trace t).capacity = s.capacity := rfl
  have hdisj : ∀ x, x ∈ (promote s.order t.key).drop s.capacity →
      x ∉ (promote s.order t.key).take s.capacity := by
    intro x hxd hxt
    have hsplit := List.take_append_drop s.capacity (promote s.order t.key)
    rw [← hsplit] at hn2
    exact (List.nodup_append.mp hn2).2.2 hxt hxd
  refine ⟨?_, ?_, ?_⟩
  · rw [e1, ho]
    exact hn2.sublist (List.take_sublist _ _)
  · intro x
    rw [e1, e2, ho, hc x]
    by_cases hd : x ∈ (promote s.order t.key).drop s.capacity
    · simp [hd, hdisj x hd]
    · have hmem : x ∈ promote s.order t.key ↔
          x ∈ (promote s.order t.key).take s.capacity ∨
          x ∈ (promote s.order t.key).drop s.capacity := by
        have hsplit := List.take_append_drop s.capacity (promote s.order t.key)
        constructor
        · intro hx
          rw [← hsplit] at hx
          exact List.mem_append.mp hx
        · intro hx
          rw [← hsplit]
          exact List.mem_append.mpr hx
      simp only [if_neg hd]
      rw [isSome_lookupKey_setKey, hcor x, ← mem_promote, hmem]
      simp [hd]
  · rw [e1, e3, ho, List.length_take]
    exact min_le_left _ _

theorem recall_wf (s : AstroStore) (k : String) (now : ℤ) (h : StoreWF s) :
    StoreWF (s.recall k now).2 := by
  obtain ⟨hn, hcor, hlen⟩ := h
  cases hl : lookupKey s.cache k with
  | none =>
      simp only [AstroStore.recall, hl]
      exact ⟨hn, hcor, hlen⟩
  | some t =>
      have hmem : k ∈ s.order := by
        rw [← hcor k, hl]
        rfl
      by_cases hth : (t.decay now).stability < 9/50
      · simp only [AstroStore.recall, hl, if_pos hth]
        refine ⟨hn, ?_, hlen⟩
        intro x
        rw [isSome_lookupKey_setKey, hcor x]
        constructor
        · rintro (rfl | hx)
          · exact hmem
          · exact hx
        · intro hx
          exact Or.inr hx
      · simp only [AstroStore.recall, hl, if_neg hth]
        refine ⟨nodup_promote _ _ hn, ?_, ?_⟩
        · intro x
          rw [isSome_lookupKey_setKey, hcor x, mem_promote]
        · rw [length_promote_mem s.order k hmem]
          exact hlen

theorem persist_trace_wf (s : AstroStore) (t : AstroTrace) (h : StoreWF s) :
    StoreWF (s.persist_trace t) :=
  insert_trace_wf s t h

theorem consolidate_wf (s : AstroStore) (k : String) (d r : ℚ) (e : Bool) (now : ℤ)
    (h : StoreWF s) : StoreWF (s.consolidate k d r e now) :=
  persist_trace_wf s _ h

theorem fold_sync_delta_wf (s : AstroStore) (k : String) (dd dr : ℚ) (now : ℤ)
    (h : StoreWF s) : StoreWF (s.fold_sync_delta k dd dr now) := by
  unfold AstroStore.fold_sync_delta
  by_cases hz : dd = 0 ∧ dr = 0
  · simpa [hz] using h
  · simp only [if_neg hz]
    exact persist_trace_wf s _ h

theorem applyOp_wf (s : AstroStore) (op : AstroOp) (h : StoreWF s) :
    StoreWF (applyOp s op) := by
  cases op with
  | recallOp k now => exact recall_wf s k now h
  | consolidateOp k d r e now => exact consolidate_wf s k d r e now h
  | foldOp k dd dr now => exact fold_sync_delta_wf s k dd dr now h

theorem applyOps_wf (ops : List AstroOp) :
    ∀ (s : AstroStore), StoreWF s → StoreWF (applyOps s ops) := by
  induction ops with
  | nil => intro s h; exact h
  | cons op rest ih =>
      intro s h
      exact ih (applyOp s op) (applyOp_wf s op h)

theorem load_wf (lines : List String) (cap : ℕ) : StoreWF (AstroStore.load lines cap) := by
  have hgen : ∀ (ls : List String) (s : AstroStore), StoreWF s →
      StoreWF (ls.foldl
        (fun st line =>
          match AstroTrace.from_json_line line with
          | some t => st.insert_trace t
          | none => st) s) := by
    intro ls
    induction ls with
    | nil => intro s h; exact h
    | cons line rest ih =>
        intro s h
        simp only [List.foldl_cons]
        cases hp : AstroTrace.from_json_line line with
        | none =>
            simp only [hp]
            exact ih _ h
        | some t =>
            simp only [hp]
            exact ih _ (insert_trace_wf s t h)
  refine hgen lines { cache := [], order := [], capacity := max cap 1, log := lines } ?_
  refine ⟨List.nodup_nil, ?_, ?_⟩
  · intro x
    simp [lookupKey]
  · simp

theorem clamp01_bounds (v : ℚ) : 0 ≤ clamp01 v ∧ clamp01 v ≤ 1 := by
  unfold clamp01
  split_ifs with h1 h2
  · norm_num
  · norm_num
  · constructor <;> linarith

theorem new_trace_bounded (k : String) (now : ℤ) : traceBounded (AstroTrace.new k now) := by
  unfold AstroTrace.new traceBounded
  norm_num

theorem decay_bounded (t : AstroTrace) (now : ℤ) (h : traceBounded t) :
    traceBounded (t.decay now) := by
  obtain ⟨hs0, hs1, rest⟩ := h
  unfold AstroTrace.decay
  dsimp only
  split_ifs with g1 g2 g3 g4
  · exact ⟨hs0, hs1, rest⟩
  · exact ⟨hs0, hs1, rest⟩
  · exact ⟨hs0, hs1, rest⟩
  all_goals
    refine ⟨le_max_right _ _, ?_, rest⟩
    refine max_le ?_ (by norm_num)
    have hd0 : 0 ≤ min (min (((now - t.last_ts : ℤ) : ℚ) / 86400) 30 * (2/25)) t.stability := by
      refine le_min (mul_nonneg ?_ (by norm_num)) hs0
      have hdays := not_le.mp g3
      linarith
    linarith

theorem lookupKey_setKey_cases (c : List (String × AstroTrace)) (k : String) (t : AstroTrace)
    (x : String) (u : AstroTrace) (h : lookupKey (setKey c k t) x = some u) :
    u = t ∨ lookupKey c x = some u := by
  by_cases hx : x = k
  · subst hx
    rw [lookupKey_setKey_self] at h
    exact Or.inl (Option.some.inj h).symm
  · rw [lookupKey_setKey_ne c k t x hx] at h
    exact Or.inr h

theorem evictFuel_lookup_sub (fuel : ℕ) :
    ∀ (cache : List (String × AstroTrace)) (order : List String) (cap : ℕ) (x : String)
      (u : AstroTrace),
      lookupKey (evictFuel fuel cache order cap).1 x = some u → lookupKey cache x = some u := by
  induction fuel with
  | zero => intro c o cap x u h; exact h
  | succ fuel ih =>
      intro c o cap x u h
      by_cases hlt : cap < o.length
      · cases hg : o.getLast? with
        | none =>
            simp only [evictFuel, if_pos hlt, hg] at h
            exact h
        | some k =>
            simp only [evictFuel, if_pos hlt, hg] at h
            have h2 := ih _ _ _ _ _ h
            by_cases hxk : x = k
            · rw [hxk, lookupKey_removeKey_self] at h2
              cases h2
            · rwa [lookupKey_removeKey_ne c k x hxk] at h2
      · simp only [evictFuel, if_neg hlt] at h
        exact h

theorem insert_trace_bounded (s : AstroStore) (t : AstroTrace)
    (h : StoreBounded s) (ht : traceBounded t) : StoreBounded (s.insert_trace t) := by
  intro x u hl
  have h2 : lookupKey (setKey s.cache t.key t) x = some u := evictFuel_lookup_sub _ _ _ _ _ _ hl
  rcases lookupKey_setKey_cases s.cache t.key t x u h2 with rfl | horig
  · exact ht
  · exact h _ _ horig

theorem recall_bounded (s : AstroStore) (k : String) (now : ℤ) (h : StoreBounded s) :
    StoreBounded (s.recall k now).2 := by
  cases hl : lookupKey s.cache k with
  | none =>
      simp only [AstroStore.recall, hl]
      exact h
  | some t =>
      have ht : traceBounded (t.decay now) := decay_bounded t now (h _ _ hl)
      by_cases hth : (t.decay now).stability < 9/50
      · simp only [AstroStore.recall, hl, if_pos hth]
        intro x u hl2
        rcases lookupKey_setKey_cases s.cache k (t.decay now) x u hl2 with rfl | horig
        · exact ht
        · exact h _ _ horig
      · simp only [AstroStore.recall, hl, if_neg hth]
        intro x u hl2
        rcases lookupKey_setKey_cases s.cache k _ x u hl2 with rfl | horig
        · exact ht
        · exact h _ _ horig

theorem persist_trace_bounded (s : AstroStore) (t : AstroTrace)
    (h : StoreBounded s) (ht : traceBounded t) : StoreBounded (s.persist_trace t) :=
  insert_trace_bounded s t h ht

theorem consolidate_bounded (s : AstroStore) (k : String) (d r : ℚ) (e : Bool) (now : ℤ)
    (h : StoreBounded s) : StoreBounded (s.consolidate k d r e now) := by
  obtain ⟨b1, b2, b3, b4, b5, b6, b7, b8, b9, b10⟩ :
      traceBounded ((lookupKey s.cache k).getD (AstroTrace.new k now)) := by
    cases hl : lookupKey s.cache k with
    | none => simpa using new_trace_bounded k now
    | some t => simpa using h _ _ hl
  unfold AstroStore.consolidate
  dsimp only
  split_ifs
  all_goals
    refine persist_trace_bounded s _ h ?_
    unfold traceBounded
    dsimp only
    exact ⟨lo_le_rclamp _ _ _ (by norm_num), rclamp_le_hi _ _ _,
      (clamp01_bounds _).1, (clamp01_bounds _).2, (clamp01_bounds _).1, (clamp01_bounds _).2,
      b7, b8, b9, b10⟩

theorem fold_sync_delta_bounded (s : AstroStore) (k : String) (dd dr : ℚ) (now : ℤ)
    (h : StoreBounded s) : StoreBounded (s.fold_sync_delta k dd dr now) := by
  obtain ⟨b1, b2, b3, b4, b5, b6, b7, b8, b9, b10⟩ :
      traceBounded ((lookupKey s.cache k).getD (AstroTrace.new k now)) := by
    cases hl : lookupKey s.cache k with
    | none => simpa using new_trace_bounded k now
    | some t => simpa using h _ _ hl
  unfold AstroStore.fold_sync_delta
  dsimp only
  split_ifs
  · exact h
  all_goals
    refine persist_trace_bounded s _ h ?_
    unfold traceBounded
    dsimp only
    exact ⟨b1, b2, b3, b4, b5, b6,
      lo_le_rclamp _ _ _ (by norm_num), rclamp_le_hi _ _ _,
      lo_le_rclamp _ _ _ (by norm_num), rclamp_le_hi _ _ _⟩

theorem applyOp_bounded (s : AstroStore) (op : AstroOp) (h : StoreBounded s) :
    StoreBounded (applyOp s op) := by
  cases op with
  | recallOp k now => exact recall_bounded s k now h
  | consolidateOp k d r e now => exact consolidate_bounded s k d r e now h
  | foldOp k dd dr now => exact fold_sync_delta_bounded s k dd dr now h

theorem applyOps_bounded (ops : List AstroOp) :
    ∀ (s : AstroStore), StoreBounded s → StoreBounded (applyOps s ops) := by
  induction ops with
  | nil => intro s h; exact h
  | cons op rest ih =>
      intro s h
      exact ih (applyOp s op) (applyOp_bounded s op h)

theorem load_bounded (lines : List String) (cap : ℕ)
    (hl : ∀ line ∈ lines, ∀ t, AstroTrace.from_json_line line = some t → traceBounded t) :
    StoreBounded (AstroStore.load lines cap) := by
  have hgen : ∀ (ls : List String) (s : AstroStore),
      (∀ line ∈ ls, ∀ t, AstroTrace.from_json_line line = some t → traceBounded t) →
      StoreBounded s →
      StoreBounded (ls.foldl
        (fun st line =>
          match AstroTrace.from_json_line line with
          | some t => st.insert_trace t
          | none => st) s) := by
    intro ls
    induction ls with
    | nil => intro s _ h; exact h
    | cons line rest ih =>
        intro s hls h
        simp only [List.foldl_cons]
        cases hp : AstroTrace.from_json_line line with
        | none =>
            simp only [hp]
            exact ih _ (fun l hm => hls l (List.mem_cons_of_mem line hm)) h
        | some t =>
            simp only [hp]
            refine ih _ (fun l hm => hls l (List.mem_cons_of_mem line hm)) ?_
            exact insert_trace_bounded s t h (hls line (List.mem_cons_self line rest) t hp)
  refine hgen lines { cache := [], order := [], capacity := max cap 1, log := lines } hl ?_
  intro x u hlk
  cases hlk

/-- C3 (counterexample): load replays a log line with stability 5.0 into the
cache unclamped, so the claimed bounds do not hold for traces inserted by
load's replay of an arbitrary durable log. -/
theorem trace_bounds_counterexample :
    lookupKey (AstroStore.load [badLogLine] 4).cache "k" = some badTrace ∧
    ¬ StoreBounded (AstroStore.load [badLogLine] 4) := by
  constructor
  · with_unfolding_all decide
  · intro hb
    have h2 := hb "k" badTrace (by with_unfolding_all decide)
    have h3 := h2.2.1
    norm_num [badTrace] at h3

/-- C3 (amended): provided every parseable line of the replayed log is
within bounds (as every line written by the store itself is), every trace
held in the cache after load and any sequence of recall / consolidate /
fold_sync_delta operations has stability, ema_drift and ema_res in [0,1] and
sync-bias fields in [-0.2, 0.2]; traces written by the operations themselves
are always clamped into these ranges. -/
theorem trace_bounds_invariant (lines : List String) (cap : ℕ) (ops : List AstroOp)
    (hlines : ∀ line ∈ lines, ∀ t, AstroTrace.from_json_line line = some t → traceBounded t) :
    StoreBounded (applyOps (AstroStore.load lines cap) ops) :=
  applyOps_bounded ops _ (load_bounded lines cap hlines)

/-- C3 (witness): the bounds invariant applied to a concrete run, evaluated
at the concrete cached trace. -/
theorem trace_bounds_invariant_witness : traceBounded wTrace :=
  trace_bounds_invariant [] 4 [AstroOp.consolidateOp "k" (2/5) (7/10) true 10]
    (fun line hm => absurd hm (List.not_mem_nil line)) "k" wTrace
    (by with_unfolding_all decide)

/-- C7: after any operation sequence on a loaded store the recency list is
duplicate-free, lists exactly the cached keys, and never exceeds capacity;
and on a well-formed store every insert evicts precisely the keys beyond
capacity at the back of the promoted recency list — the least recently
touched ones. -/
theorem lru_invariant :
    (∀ (lines : List String) (cap : ℕ) (ops : List AstroOp),
      StoreWF (applyOps (AstroStore.load lines cap) ops)) ∧
    (∀ (s : AstroStore) (t : AstroTrace), StoreWF s →
      (s.insert_trace t).order = (promote s.order t.key).take s.capacity ∧
      ∀ x, lookupKey (s.insert_trace t).cache x =
        if x ∈ (promote s.order t.key).drop s.capacity then none
        else lookupKey (setKey s.cache t.key t) x) := by
  constructor
  · intro lines cap ops
    exact applyOps_wf ops _ (load_wf lines cap)
  · intro s t h
    exact evictFuel_spec (promote s.order t.key).length (setKey s.cache t.key t)
      (promote s.order t.key) s.capacity le_rfl (nodup_promote _ _ h.1)

/-- C7 (witness): the eviction characterization applied to a concrete store
whose well-formedness comes from the invariant theorem itself. -/
theorem lru_invariant_witness :
    ((AstroStore.load [] 3).insert_trace (AstroTrace.new "a" 0)).order =
      (promote (AstroStore.load [] 3).order (AstroTrace.new "a" 0).key).take
        (AstroStore.load [] 3).capacity :=
  (lru_invariant.2 (AstroStore.load [] 3) (AstroTrace.new "a" 0)
    (lru_invariant.1 [] 3 [])).1

set_option maxRecDepth 100000 in
/-- C8: with capacity 2 and consolidate calls for keys a, b, b, c in order,
key a is evicted (the order list is [c, b]); after reloading from the durable
log, recall of a misses and recall of b returns advice. -/
theorem lru_eviction_scenario :
    lruAfter.order = ["c", "b"] ∧
    (lruReloaded.recall "a" 5).1 = none ∧
    ((lruReloaded.recall "a" 5).2.recall "b" 5).1.isSome = true := by
  with_unfolding_all decide

/-- C6: recall returns none for an absent key; otherwise it decays the trace
exactly as the spec words it (elapsed days capped at 30 times the 0.08 daily
rate, subtracted and floored at 0, clearing the emotional tag below the 0.18
threshold), returns none when post-decay stability is below the threshold,
and otherwise returns the advice linear in the clamped intensity blend while
setting last-seen to now and promoting the key to most-recently-used. -/
theorem recall_spec (s : AstroStore) (k : String) (now : ℤ) :
    (lookupKey s.cache k = none → s.recall k now = (none, s)) ∧
    (∀ t, lookupKey s.cache k = some t →
      (t.last_ts < now →
        t.decay now =
          (if decayedStability t now < 9/50
           then { t with stability := decayedStability t now, emo_tag := false }
           else { t with stability := decayedStability t now })) ∧
      ((t.decay now).stability < 9/50 →
        s.recall k now = (none, { s with cache := setKey s.cache k (t.decay now) })) ∧
      (9/50 ≤ (t.decay now).stability →
        s.recall k now =
          (some (adviceOf (t.decay now)),
           { s with cache := setKey s.cache k { t.decay now with last_ts := now },
                    order := promote s.order k }))) := by
  refine ⟨?_, ?_⟩
  · intro hl
    simp [AstroStore.recall, hl]
  · intro t hl
    refine ⟨?_, ?_, ?_⟩
    · intro hlt
      unfold AstroTrace.decay
      rw [if_neg (not_le.mpr hlt)]
      dsimp only
      rw [if_neg (by omega : ¬ (now - t.last_ts ≤ 0))]
      have hdayspos : (0:ℚ) < min (((now - t.last_ts : ℤ) : ℚ) / 86400) 30 := by
        refine lt_min ?_ (by norm_num)
        have h1 : (0:ℚ) < ((now - t.last_ts : ℤ) : ℚ) := by
          exact_mod_cast Int.sub_pos.mpr hlt
        positivity
      rw [if_neg (not_le.mpr hdayspos)]
      have heq : max (t.stability -
            min (min (((now - t.last_ts : ℤ) : ℚ) / 86400) 30 * (2/25)) t.stability) 0 =
          decayedStability t now := by
        unfold decayedStability
        rcases le_total (min (((now - t.last_ts : ℤ) : ℚ) / 86400) 30 * (2/25)) t.stability
          with hc | hc
        · rw [min_eq_left hc]
        · rw [min_eq_right hc]
          rw [max_eq_right (by linarith : t.stability - t.stability ≤ 0),
            max_eq_right (by linarith : t.stability -
              min (((now - t.last_ts : ℤ) : ℚ) / 86400) 30 * (2/25) ≤ 0)]
      rw [heq]
    · intro hth
      simp only [AstroStore.recall, hl, if_pos hth]
    · intro hge
      simp only [AstroStore.recall, hl, if_neg (not_lt.mpr hge)]
      unfold adviceOf recallIntensity
      by_cases he : (t.decay now).emo_tag
      · simp only [he, if_pos, reduceIte]
      · simp only [he, if_neg, reduceIte, Bool.false_eq_true, add_zero]

/-- C10: recall on a present key whose post-decay stability is below the
threshold returns none yet writes the decayed trace back into the cache,
leaves last-seen unchanged (decay never touches last_ts), does not promote
the key, and appends nothing to the durable log; recall on an absent key
changes no state at all. -/
theorem recall_frame (s : AstroStore) (k : String) (now : ℤ) :
    (lookupKey s.cache k = none → s.recall k now = (none, s)) ∧
    (∀ t, lookupKey s.cache k = some t → (t.decay now).stability < 9/50 →
      (s.recall k now).1 = none ∧
      (s.recall k now).2.cache = setKey s.cache k (t.decay now) ∧
      (t.decay now).last_ts = t.last_ts ∧
      (s.recall k now).2.order = s.order ∧
      (s.recall k now).2.log = s.log ∧
      (s.recall k now).2.capacity = s.capacity) := by
  refine ⟨?_, ?_⟩
  · intro hl
    simp [AstroStore.recall, hl]
  · intro t hl hth
    have hts : (t.decay now).last_ts = t.last_ts := by
      unfold AstroTrace.decay
      dsimp only
      split_ifs <;> rfl
    simp only [AstroStore.recall, hl, if_pos hth]
    simpa using hts

set_option maxRecDepth 100000 in
/-- C6 (witness): the recall characterization applied to a concrete store
whose post-decay stability is above threshold. -/
theorem recall_spec_witness :
    hitStore.recall "k" 130 =
      (some (adviceOf (hitTrace.decay 130)),
       { hitStore with
         cache := setKey hitStore.cache "k" { hitTrace.decay 130 with last_ts := 130 }
         order := promote hitStore.order "k" }) :=
  ((recall_spec hitStore "k" 130).2 hitTrace (by with_unfolding_all decide)).2.2
    (by with_unfolding_all decide)

set_option maxRecDepth 100000 in
/-- C10 (witness): the frame characterization applied to a concrete store
with a below-threshold trace. -/
theorem recall_frame_witness :
    (missStore.recall "m" 101).1 = none ∧
    (missStore.recall "m" 101).2.cache = setKey missStore.cache "m" (missTrace.decay 101) ∧
    (missTrace.decay 101).last_ts = missTrace.last_ts ∧
    (missStore.recall "m" 101).2.order = missStore.order ∧
    (missStore.recall "m" 101).2.log = missStore.log ∧
    (missStore.recall "m" 101).2.capacity = missStore.capacity :=
  (recall_frame missStore "m" 101).2 missTrace (by with_unfolding_all decide)
    (by with_unfolding_all decide)
